import Mathlib

/-!
Shallow embedding of `utils/registry.py` from Text-Recognition-Pytorch.

The source is a single `Registry` class holding `_name : str` and
`_obj_map : dict` (a name-to-object mapping with uppercase-normalized
string keys).  Python dicts preserve insertion order and the class only
ever appends fresh keys, so `_obj_map` is modelled as an insertion-ordered
association list.  Python object references are modelled by `PyObj`
(an identity plus the `__name__` attribute); the Python value `None` is
modelled by `Option.none`, so a stored value has type `Option PyObj`.
Exceptions are modelled with `Except`: the `AssertionError` raised by
`_do_register`, the `KeyError` raised by `get`, and the `AttributeError`
that Python raises when `.upper()` or `.__name__` is requested from an
object that lacks it.
-/

/-- Models Python `str.upper()` for the ASCII case mapping: the uppercase
conversion applied to every character of the string (Lean's `Char.toUpper`
is exactly the ASCII case map). -/
def pyUpper (s : String) : String := ⟨s.data.map Char.toUpper⟩

/-- A Python object reference: `oid` is the reference identity (two objects
are the same reference iff they are equal here) and `intrinsicName` models
the `__name__` attribute of a class or function. -/
structure PyObj where
  oid : Nat
  intrinsicName : String
deriving DecidableEq

/-- A Python value as stored in the registry: `none` models Python `None`,
`some o` models a reference to the object `o`. -/
abbrev PyVal := Option PyObj

/-- A Python value passed as the `module_name` argument: either a string or
some non-string object (as in `register(MyBackbone)`). -/
inductive MName where
  | str (s : String) : MName
  | obj (o : PyObj) : MName
deriving DecidableEq

/-- The exceptions the source can raise.
`duplicateRegistration` models the `AssertionError` of `_do_register`,
whose message is formatted from the uppercased name and the registry name.
`notFound` models the `KeyError` of `get`, whose message is formatted from
the uppercased name, the registry name and `self._obj_map.keys()`.
`attributeError` models the `AttributeError` raised when `.upper()` is
called on a non-string or `.__name__` is read from `None`. -/
inductive RegError where
  | duplicateRegistration (upperName : String) (registryName : String) : RegError
  | notFound (upperName : String) (registryName : String) (knownKeys : List String) : RegError
  | attributeError : RegError
deriving DecidableEq

/-- Python `str(dict_keys)` rendering, e.g. `dict_keys(['A', 'B'])`. -/
def keys_repr (keys : List String) : String :=
  "dict_keys([" ++ String.intercalate ", " (keys.map (fun k => "'" ++ k ++ "'")) ++ "])"

/-- The exact exception message strings built by the source's
`"...".format(...)` calls. -/
def RegError.message : RegError → String
  | .duplicateRegistration u rn =>
      "An object named '" ++ u ++ "' was already registered in '" ++ rn ++ "' registry!"
  | .notFound u rn keys =>
      "No object named '" ++ u ++ "' found in '" ++ rn ++ "' registry[" ++ keys_repr keys ++ "]!"
  | .attributeError => "AttributeError"

/-- `s` contains `sub` as a contiguous substring. -/
def str_includes (s sub : String) : Prop := ∃ a b, s = a ++ sub ++ b

/-- The `Registry` state: `_name` and `_obj_map` of the source. -/
structure Registry where
  name : String
  obj_map : List (String × PyVal)
deriving DecidableEq

/-- Python `dict` key lookup on the insertion-ordered association list:
`some v` when the key is present with value `v`, `none` when absent. -/
def lookup_key : List (String × PyVal) → String → Option PyVal
  | [], _ => none
  | (k, v) :: rest, key => if k = key then some v else lookup_key rest key

/-- `Registry.__init__`: an empty registry tagged with `name`. -/
def Registry.make (name : String) : Registry := ⟨name, []⟩

/-- `Registry._do_register`: uppercase the name, assert the key is absent
(raising `AssertionError` formatted from the uppercased name and the
registry name), then insert `self._obj_map[upper_name] = obj`. -/
def Registry.do_register (r : Registry) (nm : String) (obj : PyVal) :
    Except RegError Registry :=
  let upper_name := pyUpper nm
  if (lookup_key r.obj_map upper_name).isSome then
    .error (.duplicateRegistration upper_name r.name)
  else
    .ok { r with obj_map := r.obj_map ++ [(upper_name, obj)] }

/-- The result of a call to `Registry.register`:
`voidRet` models the implicit `None` returned after a direct registration,
`raised e` models an exception propagating out of the call, and
`decoRet mn` models returning the closure `deco` (which captures
`module_name` and `self`; `self` is taken at application time). -/
inductive RegisterResult where
  | voidRet : RegisterResult
  | raised (e : RegError) : RegisterResult
  | decoRet (module_name : Option MName) : RegisterResult
deriving DecidableEq

/-- `Registry.register`: when `obj is None` the call returns the decorator
closure without touching the mapping; otherwise it computes
`name = module_name if module_name is not None else obj.__name__` and calls
`_do_register(name, obj)`.  A non-string `module_name` makes
`name.upper()` inside `_do_register` raise `AttributeError` before any
mutation.  The returned `Registry` is the state after the call (unchanged
when an exception is raised, since the assert precedes the insertion). -/
def Registry.register (r : Registry) (module_name : Option MName) (obj : PyVal) :
    Registry × RegisterResult :=
  match obj with
  | none => (r, .decoRet module_name)
  | some o =>
    let name_or_err : Except RegError String :=
      match module_name with
      | some (.str s) => .ok s
      | some (.obj _) => .error .attributeError
      | none => .ok o.intrinsicName
    match name_or_err with
    | .error e => (r, .raised e)
    | .ok nm =>
      match r.do_register nm (some o) with
      | .ok r' => (r', .voidRet)
      | .error e => (r, .raised e)

/-- Applying the closure `deco` returned by decorator-mode `register` to the
target `func_or_class`: `name = module_name if module_name is not None else
func_or_class.__name__`, then `_do_register(name, func_or_class)` and return
`func_or_class` unchanged.  `__name__` on `None` and `.upper()` on a
non-string `module_name` raise `AttributeError`. -/
def Registry.deco (r : Registry) (module_name : Option MName) (func_or_class : PyVal) :
    Except RegError (Registry × PyVal) :=
  match module_name with
  | some (.str n) => (r.do_register n func_or_class).map (fun r' => (r', func_or_class))
  | some (.obj _) => .error .attributeError
  | none =>
    match func_or_class with
    | some o => (r.do_register o.intrinsicName (some o)).map (fun r' => (r', some o))
    | none => .error .attributeError

/-- Direct-call mode of `register` restricted to its documented use (string
or absent `module_name`, object supplied): the branch of `register` below
the decorator case. -/
def Registry.register_direct (r : Registry) (module_name : Option String) (obj : PyObj) :
    Except RegError Registry :=
  r.do_register (module_name.getD obj.intrinsicName) (some obj)

/-- `Registry.get` with the `self` state threaded explicitly: each exit of
the method body returns the state of `self` at that point.  The body reads
`self._obj_map.get(name.upper())` (Python `dict.get` yields `None` when the
key is absent), raises `KeyError` when the result `is None`, and otherwise
returns it; no statement assigns to `self`. -/
def Registry.getS (r : Registry) (nm : String) : Registry × Except RegError PyObj :=
  let ret : PyVal :=
    match lookup_key r.obj_map (pyUpper nm) with
    | some v => v
    | none => none
  match ret with
  | none => (r, .error (.notFound (pyUpper nm) r.name (r.obj_map.map Prod.fst)))
  | some o => (r, .ok o)

/-- `Registry.get`: the value (or exception) produced by the method. -/
def Registry.get (r : Registry) (nm : String) : Except RegError PyObj :=
  (r.getS nm).2

/-- `Registry.__getitem__`: the body is `return self.get(name)`. -/
def Registry.getitem (r : Registry) (nm : String) : Except RegError PyObj :=
  r.get nm

/-- `Registry.__getitem__` with the `self` state threaded explicitly:
it delegates to `get`. -/
def Registry.getitemS (r : Registry) (nm : String) : Registry × Except RegError PyObj :=
  r.getS nm

/-- One externally invokable operation on a registry. -/
inductive Op where
  | callRegister (module_name : Option MName) (obj : PyVal) : Op
  | applyDeco (module_name : Option MName) (func_or_class : PyVal) : Op
  | callGet (nm : String) : Op
deriving DecidableEq

/-- The registry state after one operation.  When the operation raises, the
state is the caller-visible state at the raise; in this source every raise
happens before any mutation, so the pre-state is kept. -/
def step (r : Registry) (op : Op) : Registry :=
  match op with
  | .callRegister mn obj => (r.register mn obj).1
  | .applyDeco mn t =>
    match r.deco mn t with
    | .ok (r', _) => r'
    | .error _ => r
  | .callGet nm => (r.getS nm).1

/-- The registry state after a sequence of operations. -/
def run (r : Registry) (ops : List Op) : Registry := ops.foldl step r

/-- Every stored key is fixed by uppercase normalization. -/
def normalized_keys (m : List (String × PyVal)) : Prop :=
  ∀ p ∈ m, pyUpper p.1 = p.1

/-- No two entries share a key. -/
def unique_keys (m : List (String × PyVal)) : Prop :=
  (m.map Prod.fst).Nodup

/-! ### Helper lemmas -/

theorem char_toUpper_eq (c : Char) :
    c.toUpper = if c.toNat ≥ 97 ∧ c.toNat ≤ 122 then Char.ofNat (c.toNat - 32) else c := rfl

theorem char_ofNatAux_toNat (n : Nat) (h : n.isValidChar) : (Char.ofNatAux n h).toNat = n := by
  simp [Char.ofNatAux, Char.toNat, UInt32.toNat]

theorem char_ofNat_toNat_sub (c : Char) (h : c.toNat ≥ 97 ∧ c.toNat ≤ 122) :
    (Char.ofNat (c.toNat - 32)).toNat = c.toNat - 32 := by
  have hvalid : (c.toNat - 32).isValidChar := by
    left
    omega
  rw [Char.ofNat, dif_pos hvalid]
  exact char_ofNatAux_toNat _ hvalid

theorem char_toUpper_idem (c : Char) : c.toUpper.toUpper = c.toUpper := by
  by_cases h : c.toNat ≥ 97 ∧ c.toNat ≤ 122
  · rw [char_toUpper_eq c, if_pos h, char_toUpper_eq, if_neg]
    rw [char_ofNat_toNat_sub c h]
    omega
  · rw [char_toUpper_eq c, if_neg h, char_toUpper_eq, if_neg h]

theorem list_toUpper_idem (l : List Char) :
    (l.map Char.toUpper).map Char.toUpper = l.map Char.toUpper := by
  induction l with
  | nil => rfl
  | cons c cs ih => simp [char_toUpper_idem, ih]

theorem pyUpper_idem (s : String) : pyUpper (pyUpper s) = pyUpper s := by
  unfold pyUpper
  exact congrArg String.mk (list_toUpper_idem s.data)

theorem lookup_key_eq_none_iff (m : List (String × PyVal)) (k : String) :
    lookup_key m k = none ↔ k ∉ m.map Prod.fst := by
  induction m with
  | nil => simp [lookup_key]
  | cons p rest ih =>
    obtain ⟨a, b⟩ := p
    by_cases hk : a = k
    · subst hk
      simp [lookup_key]
    · simp [lookup_key, hk, ih, Ne.symm hk]

theorem lookup_key_append_self (m : List (String × PyVal)) (k : String) (v : PyVal)
    (h : lookup_key m k = none) : lookup_key (m ++ [(k, v)]) k = some v := by
  induction m with
  | nil => simp [lookup_key]
  | cons p rest ih =>
    obtain ⟨a, b⟩ := p
    by_cases hk : a = k
    · subst hk
      simp [lookup_key] at h
    · simp [lookup_key, hk] at h ⊢
      exact ih h

theorem do_register_ok_iff (r : Registry) (nm : String) (obj : PyVal) (r' : Registry) :
    r.do_register nm obj = .ok r' ↔
      lookup_key r.obj_map (pyUpper nm) = none ∧
        r' = { r with obj_map := r.obj_map ++ [(pyUpper nm, obj)] } := by
  unfold Registry.do_register
  cases h : lookup_key r.obj_map (pyUpper nm) with
  | none => simp [h, eq_comm]
  | some v => simp [h]

theorem do_register_duplicate (r : Registry) (nm : String) (obj : PyVal)
    (h : (lookup_key r.obj_map (pyUpper nm)).isSome) :
    r.do_register nm obj = .error (.duplicateRegistration (pyUpper nm) r.name) := by
  unfold Registry.do_register
  simp [h]

theorem getS_fst (r : Registry) (nm : String) : (r.getS nm).1 = r := by
  unfold Registry.getS
  cases h : lookup_key r.obj_map (pyUpper nm) with
  | none => simp [h]
  | some v => cases v <;> simp [h]

theorem register_direct_eq (r : Registry) (mn : Option String) (o : PyObj) :
    r.register (mn.map MName.str) (some o) =
      match r.do_register (mn.getD o.intrinsicName) (some o) with
      | .ok r' => (r', .voidRet)
      | .error e => (r, .raised e) := by
  cases mn <;> rfl

theorem do_register_preserves (r r' : Registry) (nm : String) (obj : PyVal)
    (h1 : normalized_keys r.obj_map) (h2 : unique_keys r.obj_map)
    (hok : r.do_register nm obj = .ok r') :
    normalized_keys r'.obj_map ∧ unique_keys r'.obj_map := by
  rw [do_register_ok_iff] at hok
  obtain ⟨hfresh, rfl⟩ := hok
  constructor
  · intro p hp
    rcases List.mem_append.mp hp with hmem | hmem
    · exact h1 p hmem
    · simp only [List.mem_singleton] at hmem
      subst hmem
      exact pyUpper_idem nm
  · unfold unique_keys at h2 ⊢
    simp only [List.map_append, List.map_cons, List.map_nil]
    rw [List.nodup_append]
    refine ⟨h2, List.nodup_singleton _, ?_⟩
    intro a ha hb
    simp only [List.mem_singleton] at hb
    subst hb
    exact (lookup_key_eq_none_iff _ _).mp hfresh ha

theorem step_eq_or (r : Registry) (op : Op) :
    step r op = r ∨ ∃ nm obj, r.do_register nm obj = .ok (step r op) := by
  cases op with
  | callRegister mn obj =>
    cases obj with
    | none => exact Or.inl rfl
    | some o =>
      cases mn with
      | none =>
        cases hdr : r.do_register o.intrinsicName (some o) with
        | ok r' =>
          refine Or.inr ⟨o.intrinsicName, some o, ?_⟩
          simp [step, Registry.register, hdr]
        | error e => exact Or.inl (by simp [step, Registry.register, hdr])
      | some m =>
        cases m with
        | obj x => exact Or.inl rfl
        | str s =>
          cases hdr : r.do_register s (some o) with
          | ok r' =>
            refine Or.inr ⟨s, some o, ?_⟩
            simp [step, Registry.register, hdr]
          | error e => exact Or.inl (by simp [step, Registry.register, hdr])
  | applyDeco mn t =>
    cases mn with
    | none =>
      cases t with
      | none => exact Or.inl rfl
      | some o =>
        cases hdr : r.do_register o.intrinsicName (some o) with
        | ok r' =>
          refine Or.inr ⟨o.intrinsicName, some o, ?_⟩
          simp [step, Registry.deco, hdr, Except.map]
        | error e => exact Or.inl (by simp [step, Registry.deco, hdr, Except.map])
    | some m =>
      cases m with
      | obj x => exact Or.inl rfl
      | str s =>
        cases hdr : r.do_register s t with
        | ok r' =>
          refine Or.inr ⟨s, t, ?_⟩
          simp [step, Registry.deco, hdr, Except.map]
        | error e => exact Or.inl (by simp [step, Registry.deco, hdr, Except.map])
  | callGet nm => exact Or.inl (getS_fst r nm)

theorem step_preserves (r : Registry) (op : Op)
    (h1 : normalized_keys r.obj_map) (h2 : unique_keys r.obj_map) :
    normalized_keys (step r op).obj_map ∧ unique_keys (step r op).obj_map := by
  rcases step_eq_or r op with heq | ⟨nm, obj, hok⟩
  · rw [heq]
    exact ⟨h1, h2⟩
  · exact do_register_preserves r (step r op) nm obj h1 h2 hok

theorem run_preserves (ops : List Op) (r : Registry)
    (h1 : normalized_keys r.obj_map) (h2 : unique_keys r.obj_map) :
    normalized_keys (run r ops).obj_map ∧ unique_keys (run r ops).obj_map := by
  induction ops generalizing r with
  | nil => exact ⟨h1, h2⟩
  | cons op rest ih => exact ih (step r op) (step_preserves r op h1 h2).1 (step_preserves r op h1 h2).2

/-! ### Claim theorems -/

/-- C1: registering `(name, obj)` in direct-call mode (object supplied) on a
registry in which the normalized name is not yet present makes a subsequent
`get v` for any case variant `v` of the name (any `v` with the same
uppercase form) return exactly the object `obj`. -/
theorem register_direct_then_get_returns_same_object (r : Registry)
    (module_name : Option String) (o : PyObj) (r' : Registry)
    (hfresh : lookup_key r.obj_map (pyUpper (module_name.getD o.intrinsicName)) = none)
    (hreg : r.register (module_name.map MName.str) (some o) = (r', .voidRet))
    (v : String) (hv : pyUpper v = pyUpper (module_name.getD o.intrinsicName)) :
    r'.get v = .ok o := by
  rw [register_direct_eq] at hreg
  cases hdr : r.do_register (module_name.getD o.intrinsicName) (some o) with
  | error e =>
    rw [hdr] at hreg
    exact absurd hreg (by simp)
  | ok r'' =>
    rw [hdr] at hreg
    simp only [Prod.mk.injEq] at hreg
    obtain ⟨rfl, -⟩ := hreg
    rw [do_register_ok_iff] at hdr
    obtain ⟨hfresh2, rfl⟩ := hdr
    simp [Registry.get, Registry.getS, hv, lookup_key_append_self _ _ _ hfresh2]

/-- C1 witness: on a fresh `TEST` registry, registering the object with id 42
under the explicit name `Alpha` and then looking up the case variant `aLpHa`
returns that same object. -/
theorem register_direct_then_get_returns_same_object_witness :
    (Registry.mk "TEST" [("ALPHA", some ⟨42, "Alpha"⟩)]).get "aLpHa" = .ok ⟨42, "Alpha"⟩ :=
  register_direct_then_get_returns_same_object (Registry.make "TEST") (some "Alpha")
    ⟨42, "Alpha"⟩ (Registry.mk "TEST" [("ALPHA", some ⟨42, "Alpha"⟩)]) (by decide) (by decide)
    "aLpHa" (by decide)

/-- C2: when the normalized form of a name already has an entry, a second
registration under any case variant of that name raises
`DuplicateRegistrationError` (the `AssertionError` of `_do_register`) in both
direct-call and decorator mode, the registry state is unchanged by the failed
attempt, and the first registration remains retrievable by `get`. -/
theorem second_registration_same_key_raises (r : Registry) (n₁ : String) (w : PyObj)
    (hfirst : lookup_key r.obj_map (pyUpper n₁) = some (some w))
    (n₂ : String) (hcase : pyUpper n₂ = pyUpper n₁) (o₂ : PyObj) (t : PyVal) :
    r.register (some (MName.str n₂)) (some o₂)
        = (r, .raised (.duplicateRegistration (pyUpper n₂) r.name))
      ∧ r.deco (some (MName.str n₂)) t
        = .error (.duplicateRegistration (pyUpper n₂) r.name)
      ∧ r.get n₁ = .ok w := by
  have hdup : ∀ obj, r.do_register n₂ obj
      = .error (.duplicateRegistration (pyUpper n₂) r.name) := by
    intro obj
    apply do_register_duplicate
    rw [hcase, hfirst]
    rfl
  refine ⟨?_, ?_, ?_⟩
  · simp [Registry.register, hdup]
  · simp [Registry.deco, hdup, Except.map]
  · simp [Registry.get, Registry.getS, hfirst]

/-- C2 witness: with `ALPHA` already mapping to the object with id 42 in the
`TEST` registry, re-registering under `alpha` raises the duplicate error in
both modes, leaves the state unchanged, and `get Alpha` still returns the
first object. -/
theorem second_registration_same_key_raises_witness :
    (Registry.mk "TEST" [("ALPHA", some ⟨42, "Alpha"⟩)]).register
        (some (MName.str "alpha")) (some ⟨99, "Beta"⟩)
      = (Registry.mk "TEST" [("ALPHA", some ⟨42, "Alpha"⟩)],
          .raised (.duplicateRegistration (pyUpper "alpha") "TEST"))
    ∧ (Registry.mk "TEST" [("ALPHA", some ⟨42, "Alpha"⟩)]).deco
        (some (MName.str "alpha")) (some ⟨99, "Beta"⟩)
      = .error (.duplicateRegistration (pyUpper "alpha") "TEST")
    ∧ (Registry.mk "TEST" [("ALPHA", some ⟨42, "Alpha"⟩)]).get "Alpha" = .ok ⟨42, "Alpha"⟩ :=
  second_registration_same_key_raises (Registry.mk "TEST" [("ALPHA", some ⟨42, "Alpha"⟩)])
    "Alpha" ⟨42, "Alpha"⟩ (by decide) "alpha" (by decide) ⟨99, "Beta"⟩ (some ⟨99, "Beta"⟩)

/-- C3: `get` on a name whose normalized (uppercase) form has no entry raises
`NotFoundError` (the `KeyError` of the source), and the error message
includes the requested normalized name, the registry's own name, and the
rendering of the full set of currently known normalized keys. -/
theorem get_unregistered_raises_not_found (r : Registry) (nm : String)
    (habsent : lookup_key r.obj_map (pyUpper nm) = none) :
    r.get nm = .error (.notFound (pyUpper nm) r.name (r.obj_map.map Prod.fst))
      ∧ str_includes
          (RegError.message (.notFound (pyUpper nm) r.name (r.obj_map.map Prod.fst)))
          (pyUpper nm)
      ∧ str_includes
          (RegError.message (.notFound (pyUpper nm) r.name (r.obj_map.map Prod.fst)))
          r.name
      ∧ str_includes
          (RegError.message (.notFound (pyUpper nm) r.name (r.obj_map.map Prod.fst)))
          (keys_repr (r.obj_map.map Prod.fst)) := by
  refine ⟨by simp [Registry.get, Registry.getS, habsent], ?_, ?_, ?_⟩
  · exact ⟨"No object named '",
      "' found in '" ++ r.name ++ "' registry[" ++ keys_repr (r.obj_map.map Prod.fst) ++ "]!",
      by simp [RegError.message, String.append_assoc]⟩
  · exact ⟨"No object named '" ++ pyUpper nm ++ "' found in '",
      "' registry[" ++ keys_repr (r.obj_map.map Prod.fst) ++ "]!",
      by simp [RegError.message, String.append_assoc]⟩
  · exact ⟨"No object named '" ++ pyUpper nm ++ "' found in '" ++ r.name ++ "' registry[",
      "]!",
      by simp [RegError.message, String.append_assoc]⟩

/-- C3 witness: on the `TEST` registry that only knows `ALPHA`, `get missing`
raises the not-found error carrying `MISSING`, the registry name `TEST` and
the known key set, and the message string contains all three. -/
theorem get_unregistered_raises_not_found_witness :
    (Registry.mk "TEST" [("ALPHA", some ⟨42, "Alpha"⟩)]).get "missing"
        = .error (.notFound (pyUpper "missing") "TEST" ["ALPHA"])
      ∧ str_includes (RegError.message (.notFound (pyUpper "missing") "TEST" ["ALPHA"]))
          (pyUpper "missing")
      ∧ str_includes (RegError.message (.notFound (pyUpper "missing") "TEST" ["ALPHA"])) "TEST"
      ∧ str_includes (RegError.message (.notFound (pyUpper "missing") "TEST" ["ALPHA"]))
          (keys_repr ["ALPHA"]) :=
  get_unregistered_raises_not_found (Registry.mk "TEST" [("ALPHA", some ⟨42, "Alpha"⟩)])
    "missing" (by decide)

/-- C4: the function returned by decorator-mode `register`, applied to a
target object, returns that exact target unchanged and registers it under
`module_name` if given, else under the target's intrinsic name, producing
exactly the state (or the exception) direct-call mode would produce. -/
theorem decorator_identity_and_registers_like_direct (r : Registry)
    (module_name : Option String) (o : PyObj) :
    (∃ r', r.deco (module_name.map MName.str) (some o) = .ok (r', some o)
        ∧ r.register_direct module_name o = .ok r')
      ∨ (∃ e, r.deco (module_name.map MName.str) (some o) = .error e
        ∧ r.register_direct module_name o = .error e) := by
  cases module_name with
  | none =>
    cases hdr : r.do_register o.intrinsicName (some o) with
    | ok r' =>
      exact Or.inl ⟨r', by simp [Registry.deco, hdr, Except.map],
        by simp [Registry.register_direct, hdr]⟩
    | error e =>
      exact Or.inr ⟨e, by simp [Registry.deco, hdr, Except.map],
        by simp [Registry.register_direct, hdr]⟩
  | some s =>
    cases hdr : r.do_register s (some o) with
    | ok r' =>
      exact Or.inl ⟨r', by simp [Registry.deco, hdr, Except.map],
        by simp [Registry.register_direct, hdr]⟩
    | error e =>
      exact Or.inr ⟨e, by simp [Registry.deco, hdr, Except.map],
        by simp [Registry.register_direct, hdr]⟩

/-- C5: every registry state reachable from an empty registry by any sequence
of `register` calls, decorator applications and `get` calls has only keys
that are fixed by uppercase normalization, and no two entries share a
normalized key. -/
theorem reachable_registry_invariant (name : String) (ops : List Op) :
    normalized_keys (run (Registry.make name) ops).obj_map
      ∧ unique_keys (run (Registry.make name) ops).obj_map := by
  refine run_preserves ops (Registry.make name) ?_ ?_
  · intro p hp
    simp [Registry.make] at hp
  · simp [unique_keys, Registry.make]

/-- C6: indexed access `registry[name]` is behaviorally identical to
`registry.get(name)`: the same returned reference on success and the same
`NotFoundError` on failure (the `__getitem__` body is `return self.get(name)`). -/
theorem getitem_equals_get (r : Registry) (nm : String) :
    r.getitem nm = r.get nm := rfl

/-- C7 counterexample: the original, pre-normalization input name is not
preserved for display in error messages.  On the `TEST` registry that
already maps `ALPHA`, a registration with original name `aLpHa` raises an
error whose display fields hold only the uppercase `ALPHA`; the distinct
original inputs `aLpHa` and `AlPhA` produce literally identical errors and
identical message strings, so the original spelling is lost. -/
theorem original_name_not_preserved_in_errors :
    (Registry.mk "TEST" [("ALPHA", some ⟨42, "Alpha"⟩)]).do_register "aLpHa" (some ⟨99, "Beta"⟩)
        = .error (.duplicateRegistration "ALPHA" "TEST")
      ∧ (Registry.mk "TEST" [("ALPHA", some ⟨42, "Alpha"⟩)]).do_register "aLpHa"
            (some ⟨99, "Beta"⟩)
          = (Registry.mk "TEST" [("ALPHA", some ⟨42, "Alpha"⟩)]).do_register "AlPhA"
            (some ⟨99, "Beta"⟩)
      ∧ RegError.message (.duplicateRegistration "ALPHA" "TEST")
          = "An object named 'ALPHA' was already registered in 'TEST' registry!"
      ∧ "aLpHa" ≠ "ALPHA" ∧ "AlPhA" ≠ "ALPHA" ∧ "aLpHa" ≠ "AlPhA" := by
  refine ⟨rfl, rfl, rfl, by decide, by decide, by decide⟩

/-- C7 amended: the key inserted into the mapping is the input name converted
to uppercase, and only the uppercase projection is used: the whole outcome of
a registration — the inserted key as well as the display fields of a
duplicate error — depends only on the uppercase form of the input name, so
the original pre-normalization spelling is not preserved anywhere (error
messages display the normalized name). -/
theorem registration_key_is_uppercase_projection (r : Registry) (n₁ n₂ : String)
    (obj : PyVal) (hcase : pyUpper n₁ = pyUpper n₂) :
    r.do_register n₁ obj = r.do_register n₂ obj
      ∧ r.do_register n₁ obj
        = (if (lookup_key r.obj_map (pyUpper n₁)).isSome then
            .error (.duplicateRegistration (pyUpper n₁) r.name)
          else
            .ok { r with obj_map := r.obj_map ++ [(pyUpper n₁, obj)] }) := by
  constructor
  · unfold Registry.do_register
    rw [hcase]
  · rfl

/-- C7 amended witness: registering original name `fOo` on an empty `REG`
registry inserts the key `FOO` and behaves exactly as registering `Foo`. -/
theorem registration_key_is_uppercase_projection_witness :
    (Registry.make "REG").do_register "fOo" (some ⟨7, "foo"⟩)
        = (Registry.make "REG").do_register "Foo" (some ⟨7, "foo"⟩)
      ∧ (Registry.make "REG").do_register "fOo" (some ⟨7, "foo"⟩)
        = (if (lookup_key (Registry.make "REG").obj_map (pyUpper "fOo")).isSome then
            .error (.duplicateRegistration (pyUpper "fOo") (Registry.make "REG").name)
          else
            .ok { Registry.make "REG" with
                    obj_map := (Registry.make "REG").obj_map ++ [(pyUpper "fOo", some ⟨7, "foo"⟩)] }) :=
  registration_key_is_uppercase_projection (Registry.make "REG") "fOo" "Foo"
    (some ⟨7, "foo"⟩) (by decide)

/-- C8: `get` (and indexed access) leaves the registry completely unchanged —
the name attribute and the whole mapping are the same after the call as
before — whether the call returns a reference or raises `NotFoundError`. -/
theorem get_leaves_registry_unchanged (r : Registry) (nm : String) :
    (r.getS nm).1.name = r.name ∧ (r.getS nm).1.obj_map = r.obj_map
      ∧ (r.getitemS nm).1.name = r.name ∧ (r.getitemS nm).1.obj_map = r.obj_map := by
  have h : (r.getS nm).1 = r := getS_fst r nm
  have h' : (r.getitemS nm).1 = r := getS_fst r nm
  exact ⟨by rw [h], by rw [h], by rw [h'], by rw [h']⟩

/-- C9: when Python `None` is stored as the value under some key (reachable
by applying the decorator with an explicit `module_name` to `None`), `get`
on any case variant of that key raises `NotFoundError` even though the
normalized key is present in the mapping, because `get` treats a stored
`None` exactly like an absent key. -/
theorem stored_none_treated_as_missing (r : Registry) (n : String) (r' : Registry)
    (hreg : r.deco (some (MName.str n)) none = .ok (r', none))
    (v : String) (hv : pyUpper v = pyUpper n) :
    (lookup_key r'.obj_map (pyUpper v)).isSome = true
      ∧ r'.get v = .error (.notFound (pyUpper v) r'.name (r'.obj_map.map Prod.fst)) := by
  cases hdr : r.do_register n none with
  | error e => simp [Registry.deco, hdr, Except.map] at hreg
  | ok r'' =>
    simp only [Registry.deco, hdr, Except.map, Except.ok.injEq, Prod.mk.injEq,
      and_true] at hreg
    subst hreg
    rw [do_register_ok_iff] at hdr
    obtain ⟨hfresh, rfl⟩ := hdr
    constructor
    · rw [hv, lookup_key_append_self _ _ _ hfresh]
      rfl
    · simp [Registry.get, Registry.getS, hv, lookup_key_append_self _ _ _ hfresh]

/-- C9 witness: on a fresh `TEST` registry, applying the decorator with
explicit name `Alpha` to `None` stores the key `ALPHA` with value `None`;
the key is then present, yet `get alpha` raises the not-found error. -/
theorem stored_none_treated_as_missing_witness :
    (lookup_key (Registry.mk "TEST" [("ALPHA", none)]).obj_map (pyUpper "alpha")).isSome = true
      ∧ (Registry.mk "TEST" [("ALPHA", none)]).get "alpha"
        = .error (.notFound (pyUpper "alpha") (Registry.mk "TEST" [("ALPHA", none)]).name
            ((Registry.mk "TEST" [("ALPHA", none)]).obj_map.map Prod.fst)) :=
  stored_none_treated_as_missing (Registry.make "TEST") "Alpha"
    (Registry.mk "TEST" [("ALPHA", none)]) rfl "alpha" (by decide)

/-- C10: a call `register x` that supplies only the single argument `x`
(so the `obj` parameter keeps its default `None`) — including when `x` is the
object intended for registration, as in the class docstring example — inserts
no entry into the mapping: the registry is unchanged and the call merely
returns the decorator closure capturing `x`. -/
theorem single_argument_register_returns_decorator_only (r : Registry) (x : MName) :
    r.register (some x) none = (r, .decoRet (some x)) := rfl
